import Mathlib

/-!
Shallow embedding of the log-watcher core (`watcher/watcher.py`): the bounded
sliding window, error-rate computation, failover state machine and the alert
admission gate (`send_alert`), together with the error-rate alert's upstream
breakdown.  Timestamps are integers, percentages are rationals.  The value of
a field coming from the parsed JSON dictionary is modelled at token level:
`status` is either a well-formed integer or a malformed value (on which
Python's `int(...)` raises), and the comma-separated `upstream_status` field
is a list of tokens, each either a parsed integer or a malformed part.
-/

namespace Watcher

/-- One comma-separated part of the `upstream_status` field: either it parses
as an integer (`int(p)` succeeds) or it is malformed (`int(p)` raises). -/
inductive UpTok where
  | num (n : ℤ) : UpTok
  | bad : UpTok
  deriving DecidableEq, Repr

/-- The value found under the `status` key of the parsed record: either a
value on which Python's `int(...)` yields `n`, or a malformed value on which
`int(...)` raises. -/
inductive StTok where
  | num (n : ℤ) : StTok
  | bad : StTok
  deriving DecidableEq, Repr

/-- A parsed record (the `data` dict handed to `process_record`).
`none` models an absent (or, where the code tests truthiness, falsy) field.
`rawAddrToks` models what `json.loads(raw_line).get('upstream_addr')` yields
when the error-rate breakdown re-parses the stored raw line: `none` when the
re-parse fails or the field is absent/falsy, otherwise the list of stripped
non-empty comma-separated address parts. -/
structure Data where
  status : Option StTok
  pool : Option String
  release : Option String
  upstream_status : Option (List UpTok)
  rawAddrToks : Option (List String)
  deriving DecidableEq, Repr

/-- One window entry `(status, pool, upstream_status, raw_line, ts)`; the raw
line is retained only for the upstream breakdown and sample text, so it is
represented by `rawAddrToks`. -/
structure Entry where
  status : ℤ
  pool : Option String
  us : Option (List UpTok)
  rawAddrToks : Option (List String)
  deriving DecidableEq, Repr

/-- Configuration consumed by the core. -/
structure Config where
  N : ℕ
  threshold : ℚ
  cooldown : ℤ
  maintenance : Bool

/-- Mutable state of the watcher: the deque `window`, `last_seen_pool`, and
the `last_alert_ts` dict (`none` = the kind never fired). -/
structure WState where
  window : List Entry
  lastPool : Option String
  lastAlert : String → Option ℤ

/-- `deque(maxlen=N).append`: append on the right, dropping from the left
when the deque is full. -/
def pushB (N : ℕ) (w : List α) (x : α) : List α :=
  ((w ++ [x]).drop ((w ++ [x]).length - N))

/-- `last_seen_pool` initialisation from `ACTIVE_POOL` (lines 40-42): an
empty string is normalised to unset. -/
def initPool (active : Option String) : Option String :=
  if active = some "" then none else active

/-- The scan `for p in parts: if int(p) >= 500: return True` wrapped in
`try/except`: a malformed part aborts the whole scan (returns false from
that point on). -/
def usHasError : List UpTok → Bool
  | [] => false
  | UpTok.bad :: _ => false
  | UpTok.num n :: rest => if 500 ≤ n then true else usHasError rest

/-- `entry_is_error` (lines 142-158): error iff client status ≥ 500 or the
upstream-status scan finds a code ≥ 500. -/
def entry_is_error (e : Entry) : Bool :=
  if 500 ≤ e.status then true
  else
    match e.us with
    | none => false
    | some toks => usHasError toks

/-- `errors = sum(1 for entry in window if entry_is_error(entry))`. -/
def errorCount (w : List Entry) : ℕ :=
  (w.filter entry_is_error).length

/-- `error_rate = (errors / total * 100) if total > 0 else 0.0`. -/
def errorRate (w : List Entry) : ℚ :=
  if 0 < w.length then (errorCount w : ℚ) / (w.length : ℚ) * 100 else 0

/-- A detected pool transition. -/
structure FEvent where
  fromPool : String
  toPool : String
  deriving DecidableEq, Repr

/-- The pool-flip detection of lines 164-194, as a state transition: given
`last_seen_pool` and the record's `pool` field, returns the new
`last_seen_pool` and an optional failover event.  `if pool:` means a `none`
or empty-string pool is skipped. -/
def observePool (last : Option String) (pool : Option String) :
    Option String × Option FEvent :=
  match pool with
  | none => (last, none)
  | some p =>
      if p = "" then (last, none)
      else
        match last with
        | none => (some p, none)
        | some q => if p = q then (last, none) else (some p, some ⟨q, p⟩)

/-- `send_alert` admission (lines 50-80), restricted to its state-machine
content: look up `last_alert_ts.get(alert_type, 0)`, suppress when inside the
cooldown, suppress when in maintenance mode, otherwise admit and record
`last_alert_ts[alert_type] = ts`. -/
def send_alert (cd : ℤ) (maint : Bool) (m : String → Option ℤ)
    (kind : String) (now : ℤ) : Bool × (String → Option ℤ) :=
  let last := (m kind).getD 0
  if now - last < cd then (false, m)
  else if maint then (false, m)
  else (true, fun k => if k = kind then some now else m k)

/-- `int(data.get('status', 0))`: absent defaults to 0, a well-formed value
yields its integer, a malformed value raises. -/
def getStatus : Option StTok → Except Unit ℤ
  | none => Except.ok 0
  | some (StTok.num n) => Except.ok n
  | some StTok.bad => Except.error ()

/-- The address tokens one window entry contributes to the upstream
breakdown (lines 201-215): the re-parsed `upstream_addr` parts when present
and truthy, else the single pseudo-address `"unknown"`. -/
def entryAddrToks (e : Entry) : List String :=
  match e.rawAddrToks with
  | none => ["unknown"]
  | some l => l

/-- All address tokens contributed by the window, in window order. -/
def windowAddrToks (w : List Entry) : List String :=
  (w.map entryAddrToks).flatten

/-- Keep the first occurrence of each element, in first-seen order (the
iteration order of a Python `Counter`). -/
def dedupAux (seen : List String) : List String → List String
  | [] => []
  | x :: xs => if x ∈ seen then dedupAux seen xs else x :: dedupAux (x :: seen) xs

/-- First-occurrence deduplication. -/
def firstDedup (l : List String) : List String :=
  dedupAux [] l

/-- The `Counter` over the window's address tokens, as an association list
in first-seen key order. -/
def addrCounts (w : List Entry) : List (String × ℕ) :=
  (firstDedup (windowAddrToks w)).map (fun a => (a, (windowAddrToks w).count a))

/-- Stable insertion into a count-descending list: the new element goes
before the first element whose count is not larger (Python's stable sort,
descending by count). -/
def insertD (x : String × ℕ) : List (String × ℕ) → List (String × ℕ)
  | [] => [x]
  | y :: ys => if y.2 ≤ x.2 then x :: y :: ys else y :: insertD x ys

/-- Stable sort by count, descending (the order of `Counter.most_common`). -/
def sortDesc : List (String × ℕ) → List (String × ℕ)
  | [] => []
  | x :: xs => insertD x (sortDesc xs)

/-- `addrs.most_common(5)` over the current window (lines 200-217). -/
def topUpstreams (w : List Entry) : List (String × ℕ) :=
  (sortDesc (addrCounts w)).take 5

/-- Follows the spec's words, for comparison with the code's breakdown: the
addresses actually named by the window's records — a record naming no
address contributes nothing. -/
def namedToks (w : List Entry) : List String :=
  (w.map (fun e => e.rawAddrToks.getD [])).flatten

/-- Follows the spec's words: counts over only the named addresses. -/
def specAddrCounts (w : List Entry) : List (String × ℕ) :=
  (firstDedup (namedToks w)).map (fun a => (a, (namedToks w).count a))

/-- Follows the spec's words: the top-5 breakdown over named addresses. -/
def specTopUpstreams (w : List Entry) : List (String × ℕ) :=
  (sortDesc (specAddrCounts w)).take 5

/-- The failover candidate alerts of one record (lines 164-194): when the
failover check yields an event, exactly one `failover` candidate is built and
passed through `send_alert`; otherwise none. -/
def failoverAtts (cfg : Config) (st : WState) (pool : Option String) (now : ℤ) :
    List (String × Bool) :=
  match (observePool st.lastPool pool).2 with
  | some _ =>
      [("failover", (send_alert cfg.cooldown cfg.maintenance st.lastAlert "failover" now).1)]
  | none => []

/-- The `last_alert_ts` map after the failover branch of one record. -/
def mapAfterFailover (cfg : Config) (st : WState) (pool : Option String) (now : ℤ) :
    String → Option ℤ :=
  match (observePool st.lastPool pool).2 with
  | some _ => (send_alert cfg.cooldown cfg.maintenance st.lastAlert "failover" now).2
  | none => st.lastAlert

/-- The error-rate candidate alerts (line 197): when the post-insert window
has at least 10 records and its error rate exceeds the threshold, exactly
one `error_rate` candidate is built and passed through `send_alert`. -/
def errAtts (cfg : Config) (w : List Entry) (m : String → Option ℤ) (now : ℤ) :
    List (String × Bool) :=
  if 10 ≤ w.length ∧ cfg.threshold < errorRate w then
    [("error_rate", (send_alert cfg.cooldown cfg.maintenance m "error_rate" now).1)]
  else []

/-- The `last_alert_ts` map after the error-rate branch. -/
def mapAfterErr (cfg : Config) (w : List Entry) (m : String → Option ℤ) (now : ℤ) :
    String → Option ℤ :=
  if 10 ≤ w.length ∧ cfg.threshold < errorRate w then
    (send_alert cfg.cooldown cfg.maintenance m "error_rate" now).2
  else m

/-- Body of `process_record` after the status conversion succeeded: append
the entry to the window, compute the error rate, run the failover check
(updating `last_seen_pool` unconditionally on a transition) and the
error-rate-threshold check, passing each candidate alert through
`send_alert`.  Returns the new state and the candidate alerts as
`(kind, admitted)` pairs, in the order the code attempts them. -/
def runRecord (cfg : Config) (st : WState) (d : Data) (status : ℤ) (now : ℤ) :
    WState × List (String × Bool) :=
  let e : Entry := ⟨status, d.pool, d.upstream_status, d.rawAddrToks⟩
  let w := pushB cfg.N st.window e
  let m₁ := mapAfterFailover cfg st d.pool now
  (⟨w, (observePool st.lastPool d.pool).1, mapAfterErr cfg w m₁ now⟩,
    failoverAtts cfg st d.pool now ++ errAtts cfg w m₁ now)

/-- `process_record` (lines 128-238): `int(data.get('status', 0))` raises on
a malformed status value; otherwise run the analysis body. -/
def process_record (cfg : Config) (st : WState) (d : Data) (now : ℤ) :
    Except Unit (WState × List (String × Bool)) := do
  let status ← getStatus d.status
  Except.ok (runRecord cfg st d status now)

/-- A `status` field the code's `int(...)` conversion accepts (absent or
well-formed). -/
def wfStatus (d : Data) : Prop :=
  d.status = none ∨ ∃ n : ℤ, d.status = some (StTok.num n)

/-- The integer `int(data.get('status', 0))` yields on a well-formed record. -/
def statusOf (d : Data) : ℤ :=
  match d.status with
  | some (StTok.num n) => n
  | _ => 0

/-- The window entry built from a well-formed record. -/
def entryOf (d : Data) : Entry :=
  ⟨statusOf d, d.pool, d.upstream_status, d.rawAddrToks⟩

/-- The empty `last_alert_ts` dict: no alert kind has ever fired. -/
def m0 : String → Option ℤ := fun _ => none

/-- A concrete server-error window entry. -/
def e500 : Entry := ⟨500, none, none, none⟩

/-- A concrete record with status 500 and no optional fields. -/
def d500 : Data := ⟨some (StTok.num 500), none, none, none, none⟩

/-- A concrete healthy record served by pool "green". -/
def dGreen : Data := ⟨some (StTok.num 200), some "green", none, none, none⟩

/-- A concrete configuration: window 20, threshold 2 %, cooldown 300 s,
maintenance off. -/
def cfgT : Config := ⟨20, 2, 300, false⟩

/-- A state whose window already holds nine server-error entries. -/
def stNine : WState := ⟨List.replicate 9 e500, none, m0⟩

/-- A state whose baseline pool is "blue" and whose window is empty. -/
def stBlue : WState := ⟨[], some "blue", m0⟩

/-! ### Helper lemmas about the bounded window -/

theorem pushB_length (N : ℕ) (w : List α) (x : α) :
    (pushB N w x).length = min (w.length + 1) N := by
  simp [pushB]
  omega

theorem pushB_length_le (N : ℕ) (w : List α) (x : α) :
    (pushB N w x).length ≤ N := by
  rw [pushB_length]
  omega

theorem pushB_of_lt (N : ℕ) (w : List α) (x : α) (h : w.length < N) :
    pushB N w x = w ++ [x] := by
  unfold pushB
  have h1 : (w ++ [x]).length - N = 0 := by
    simp
    omega
  rw [h1, List.drop_zero]

theorem pushB_suffix (N : ℕ) (w : List α) (x : α) :
    pushB N w x <:+ w ++ [x] :=
  List.drop_suffix _ _

theorem foldl_pushB (N : ℕ) (xs : List α) :
    ∀ w : List α, w.length ≤ N →
      List.foldl (pushB N) w xs = (w ++ xs).drop ((w ++ xs).length - N) := by
  induction xs with
  | nil =>
      intro w h
      have h1 : (w ++ ([] : List α)).length - N = 0 := by
        simp
        omega
      rw [h1, List.drop_zero]
      simp
  | cons x xs ih =>
      intro w h
      rw [List.foldl_cons, ih (pushB N w x) (pushB_length_le N w x)]
      unfold pushB
      have h1 : ((w ++ [x]) ++ xs).drop ((w ++ [x]).length - N)
          = (w ++ [x]).drop ((w ++ [x]).length - N) ++ xs := by
        rw [List.drop_append_eq_append_drop]
        have h2 : (w ++ [x]).length - N - (w ++ [x]).length = 0 := by omega
        rw [h2, List.drop_zero]
      rw [← h1, List.drop_drop]
      have h3 : (w ++ [x]) ++ xs = w ++ x :: xs := by
        simp
      rw [h3]
      congr 1
      simp [List.length_drop]
      omega

/-! ### Claim theorems -/

/-- C1: a window record is counted as an error iff its status is ≥ 500 or
some upstream status value is ≥ 500; in particular status 200 with upstream
[500] is an error, status 500 with no upstream data is an error, and status
200 with upstream [200, 304] is not. -/
theorem error_classification :
    (∀ (st : ℤ) (l : List ℤ) (p : Option String) (r : Option (List String)),
      entry_is_error ⟨st, p, some (l.map UpTok.num), r⟩ = true
        ↔ (500 ≤ st ∨ ∃ n ∈ l, 500 ≤ n)) ∧
    (∀ (st : ℤ) (p : Option String) (r : Option (List String)),
      entry_is_error ⟨st, p, none, r⟩ = true ↔ 500 ≤ st) ∧
    entry_is_error ⟨200, none, some [UpTok.num 500], none⟩ = true ∧
    entry_is_error ⟨500, none, none, none⟩ = true ∧
    entry_is_error ⟨200, none, some [UpTok.num 200, UpTok.num 304], none⟩ = false := by
  have husc : ∀ l : List ℤ, (usHasError (l.map UpTok.num) = true ↔ ∃ n ∈ l, 500 ≤ n) := by
    intro l
    induction l with
    | nil => simp [usHasError]
    | cons a l ih =>
        by_cases h : 500 ≤ a
        · simp only [List.map_cons, usHasError, if_pos h]
          exact iff_of_true (by trivial) ⟨a, List.mem_cons_self a l, h⟩
        · simp only [List.map_cons, usHasError, if_neg h]
          rw [ih]
          constructor
          · rintro ⟨n, hn, h5⟩
            exact ⟨n, List.mem_cons_of_mem a hn, h5⟩
          · rintro ⟨n, hn, h5⟩
            rcases List.mem_cons.mp hn with rfl | hn
            · exact absurd h5 h
            · exact ⟨n, hn, h5⟩
  refine ⟨?_, ?_, by decide, by decide, by decide⟩
  · intro st l p r
    unfold entry_is_error
    by_cases h : 500 ≤ st
    · simp only [if_pos h]
      exact iff_of_true (by trivial) (Or.inl h)
    · simp only [if_neg h]
      rw [husc l]
      constructor
      · exact fun h5 => Or.inr h5
      · rintro (h5 | h5)
        · exact absurd h5 h
        · exact h5
  · intro st p r
    unfold entry_is_error
    by_cases h : 500 ≤ st
    · simp only [if_pos h]
      exact iff_of_true (by trivial) h
    · simp only [if_neg h]
      simp [h]

/-- C2: starting from the empty window, after inserting `k > N` records the
window has exactly `N` records, namely the last `N` inserted in insertion
order (oldest first); moreover an insert never leaves more than `N` records,
an insert below capacity evicts nothing, and the result of an insert is
always a suffix of the old window followed by the new record (records leave
only by oldest-first eviction on insert). -/
theorem window_bound (N : ℕ) (xs : List Entry) (h : N < xs.length) :
    (List.foldl (pushB N) [] xs).length = N ∧
    List.foldl (pushB N) [] xs = xs.drop (xs.length - N) ∧
    (∀ (w : List Entry) (x : Entry), (pushB N w x).length ≤ N) ∧
    (∀ (w : List Entry) (x : Entry), w.length < N → pushB N w x = w ++ [x]) ∧
    (∀ (w : List Entry) (x : Entry), pushB N w x <:+ w ++ [x]) := by
  have hfold : List.foldl (pushB N) [] xs = xs.drop (xs.length - N) := by
    have := foldl_pushB N xs [] (by simp)
    simpa using this
  refine ⟨?_, hfold, fun w x => pushB_length_le N w x,
    fun w x hw => pushB_of_lt N w x hw, fun w x => pushB_suffix N w x⟩
  rw [hfold]
  simp [List.length_drop]
  omega

/-- C3: the failover check skips an absent pool, adopts the first observed
pool as baseline without an event, stays silent on an unchanged pool, and on
a change produces exactly one event carrying the old and new pool while
updating the state; a pre-seeded expected pool makes the first differing
record fire immediately with the seed as the event's origin. -/
theorem failover_detector (p q : String) (hp : p ≠ "") (hq : q ≠ "") (hne : p ≠ q) :
    (∀ s : Option String, observePool s none = (s, none)) ∧
    observePool none (some p) = (some p, none) ∧
    observePool (some q) (some q) = (some q, none) ∧
    observePool (some q) (some p) = (some p, some ⟨q, p⟩) ∧
    initPool (some q) = some q ∧
    observePool (initPool (some q)) (some p) = (some p, some ⟨q, p⟩) := by
  have hi : initPool (some q) = some q := by
    unfold initPool
    rw [if_neg]
    intro hcon
    exact hq (Option.some.inj hcon)
  refine ⟨fun s => rfl, ?_, ?_, ?_, hi, ?_⟩
  · simp [observePool, hp]
  · simp [observePool, hq]
  · simp [observePool, hp, hne]
  · rw [hi]
    simp [observePool, hp, hne]

/-- C3 witness: seeded with pool "blue", a record with pool "green" produces
the event blue → green and the state becomes "green". -/
theorem failover_detector_witness :
    observePool (some "blue") (some "green")
      = (some "green", some ⟨"blue", "green"⟩) ∧
    observePool (initPool (some "blue")) (some "green")
      = (some "green", some ⟨"blue", "green"⟩) := by
  have h := failover_detector "green" "blue" (by decide) (by decide) (by decide)
  exact ⟨h.2.2.2.1, h.2.2.2.2.2⟩

/-- C10: a pool field present but equal to the empty string is treated as
absent by the failover check (no adoption, no event, state unchanged), and
configuring the expected active pool as the empty string leaves the pool
state unset, so the next non-empty pool is adopted silently. -/
theorem empty_pool_absent (s : Option String) (p : String) (hp : p ≠ "") :
    observePool s (some "") = (s, none) ∧
    initPool (some "") = none ∧
    observePool (initPool (some "")) (some p) = (some p, none) := by
  refine ⟨by simp [observePool], rfl, ?_⟩
  have h0 : initPool (some "") = none := rfl
  rw [h0]
  simp [observePool, hp]

/-- C10 witness: with expected pool "" the state starts unset and the first
record with pool "green" is adopted without an event. -/
theorem empty_pool_absent_witness :
    observePool (some "blue") (some "") = (some "blue", none) ∧
    observePool (initPool (some "")) (some "green") = (some "green", none) := by
  have h1 := empty_pool_absent (some "blue") "green" (by decide)
  have h2 := empty_pool_absent none "green" (by decide)
  exact ⟨h1.1, h2.2.2⟩

/-- C5: the admission gate returns true exactly when maintenance mode is off
and the kind is out of cooldown (with a never-fired kind carrying the stored
default 0); admission records the firing time, suppression leaves the map
unchanged, and a second candidate of the same kind within the cooldown of an
admitted one is suppressed, so the pair yields exactly one admitted alert. -/
theorem alert_admission (cd : ℤ) (maint : Bool) (m : String → Option ℤ)
    (k : String) (t : ℤ) :
    ((send_alert cd maint m k t).1 = true ↔
      (maint = false ∧ cd ≤ t - (m k).getD 0)) ∧
    ((send_alert cd maint m k t).1 = true →
      (send_alert cd maint m k t).2 k = some t) ∧
    ((send_alert cd maint m k t).1 = false → (send_alert cd maint m k t).2 = m) ∧
    (∀ t₂ : ℤ, maint = false → cd ≤ t - (m k).getD 0 → t₂ - t < cd →
      (send_alert cd maint (send_alert cd maint m k t).2 k t₂).1 = false) := by
  by_cases h1 : t - (m k).getD 0 < cd
  · have e1 : send_alert cd maint m k t = (false, m) := by
      unfold send_alert
      rw [if_pos h1]
    rw [e1]
    refine ⟨?_, ?_, fun _ => rfl, ?_⟩
    · simp
      intro _
      omega
    · intro hcon
      simp at hcon
    · intro t₂ _ hle _
      exact absurd hle (by omega)
  · cases maint with
    | true =>
        have e1 : send_alert cd true m k t = (false, m) := by
          unfold send_alert
          rw [if_neg h1, if_pos rfl]
        rw [e1]
        refine ⟨by simp, ?_, fun _ => rfl, ?_⟩
        · intro hcon
          simp at hcon
        · intro t₂ hm _ _
          simp at hm
    | false =>
        have e1 : send_alert cd false m k t
            = (true, fun k' => if k' = k then some t else m k') := by
          unfold send_alert
          rw [if_neg h1]
          simp
        rw [e1]
        refine ⟨?_, ?_, ?_, ?_⟩
        · exact iff_of_true rfl ⟨rfl, by omega⟩
        · intro _
          simp
        · intro hcon
          simp at hcon
        · intro t₂ _ _ h2
          unfold send_alert
          rw [if_pos]
          simp
          omega

/-- C5 witness: from a fresh map with cooldown 300, a candidate at time 400
is admitted and recorded, and a second candidate of the same kind at time
500 is suppressed. -/
theorem alert_admission_witness :
    (send_alert 300 false m0 "error_rate" 400).1 = true ∧
    (send_alert 300 false m0 "error_rate" 400).2 "error_rate" = some 400 ∧
    (send_alert 300 false ((send_alert 300 false m0 "error_rate" 400).2)
      "error_rate" 500).1 = false := by
  have h := alert_admission 300 false m0 "error_rate" 400
  have h1 : (send_alert 300 false m0 "error_rate" 400).1 = true :=
    h.1.mpr ⟨rfl, by simp [m0]⟩
  exact ⟨h1, h.2.1 h1, h.2.2.2 500 rfl (by simp [m0]) (by omega)⟩

/-- C8 amended: the code stores "never fired" as the default timestamp 0, so
with maintenance off a never-fired kind is admitted exactly when
`now ≥ cooldownSeconds` (not at every time); the necessary condition — a
kind is admitted only when `now` minus its stored last-fired time (0 when it
never fired) is at least the cooldown — holds unconditionally. -/
theorem never_fired_admission (cd : ℤ) (m : String → Option ℤ) (k : String)
    (t : ℤ) (hnever : m k = none) :
    ((send_alert cd false m k t).1 = true ↔ cd ≤ t) ∧
    (∀ (maint : Bool) (m' : String → Option ℤ) (t' : ℤ),
      (send_alert cd maint m' k t').1 = true → cd ≤ t' - (m' k).getD 0) := by
  constructor
  · unfold send_alert
    rw [hnever]
    by_cases h1 : t - (Option.getD none 0 : ℤ) < cd
    · rw [if_pos h1]
      simp at h1 ⊢
      omega
    · rw [if_neg h1, if_neg (by simp : ¬ (false = true))]
      simp at h1 ⊢
      omega
  · intro maint m' t' hadm
    unfold send_alert at hadm
    by_cases h1 : t' - (m' k).getD 0 < cd
    · rw [if_pos h1] at hadm
      simp at hadm
    · omega

/-- C8 witness: with cooldown 300 and a fresh map, time 400 is admitted. -/
theorem never_fired_admission_witness :
    (send_alert 300 false m0 "error_rate" 400).1 = true :=
  (never_fired_admission 300 m0 "error_rate" 400 rfl).1.mpr (by omega)

/-- C8 counterexample: the kind "error_rate" has never fired and maintenance
mode is off, yet at time 0 (with cooldown 300) the gate does not admit it,
because "never fired" is stored as last-fired time 0. -/
theorem never_fired_admission_counterexample :
    m0 "error_rate" = none ∧
    (send_alert 300 false m0 "error_rate" 0).1 = false := by
  constructor
  · rfl
  · rfl

/-! ### Helper lemmas about `process_record` -/

theorem process_record_wf (cfg : Config) (st : WState) (d : Data) (now : ℤ)
    (h : wfStatus d) :
    process_record cfg st d now = Except.ok (runRecord cfg st d (statusOf d) now) := by
  rcases h with h | ⟨n, h⟩ <;>
    (simp only [process_record, getStatus, statusOf, h]; rfl)

theorem runRecord_window (cfg : Config) (st : WState) (d : Data) (s now : ℤ) :
    (runRecord cfg st d s now).1.window
      = pushB cfg.N st.window ⟨s, d.pool, d.upstream_status, d.rawAddrToks⟩ := rfl

theorem runRecord_lastPool (cfg : Config) (st : WState) (d : Data) (s now : ℤ) :
    (runRecord cfg st d s now).1.lastPool = (observePool st.lastPool d.pool).1 := rfl

theorem runRecord_att (cfg : Config) (st : WState) (d : Data) (s now : ℤ) :
    (runRecord cfg st d s now).2
      = failoverAtts cfg st d.pool now
        ++ errAtts cfg (pushB cfg.N st.window ⟨s, d.pool, d.upstream_status, d.rawAddrToks⟩)
            (mapAfterFailover cfg st d.pool now) now := rfl

theorem failoverAtts_kinds (cfg : Config) (st : WState) (pool : Option String)
    (now : ℤ) : ∀ pr ∈ failoverAtts cfg st pool now, pr.1 = "failover" := by
  unfold failoverAtts
  rcases (observePool st.lastPool pool).2 with _ | ev <;> simp

theorem errAtts_mem (cfg : Config) (w : List Entry) (m : String → Option ℤ)
    (now : ℤ) :
    "error_rate" ∈ (errAtts cfg w m now).map Prod.fst
      ↔ (10 ≤ w.length ∧ cfg.threshold < errorRate w) := by
  unfold errAtts
  split_ifs with h <;> simp [h]

theorem errAtts_no_failover (cfg : Config) (w : List Entry)
    (m : String → Option ℤ) (now : ℤ) :
    ((errAtts cfg w m now).map Prod.fst).count "failover" = 0 := by
  unfold errAtts
  split_ifs <;> simp

/-- C4: an `error_rate` candidate alert is built exactly when the post-insert
window has at least 10 records and its error rate exceeds the configured
threshold, where the rate is `errorCount / size * 100` for a non-empty
window and 0 otherwise, computed over exactly the current window contents
including the record just inserted. -/
theorem error_rate_alert (cfg : Config) (st : WState) (d : Data) (now : ℤ)
    (h : wfStatus d) :
    ∃ st' att, process_record cfg st d now = Except.ok (st', att) ∧
      st'.window = pushB cfg.N st.window (entryOf d) ∧
      ("error_rate" ∈ att.map Prod.fst ↔
        (10 ≤ st'.window.length ∧ cfg.threshold < errorRate st'.window)) ∧
      errorRate st'.window
        = (if 0 < st'.window.length
           then (errorCount st'.window : ℚ) / (st'.window.length : ℚ) * 100
           else 0) := by
  refine ⟨(runRecord cfg st d (statusOf d) now).1, (runRecord cfg st d (statusOf d) now).2,
    by rw [process_record_wf cfg st d now h], runRecord_window cfg st d (statusOf d) now,
    ?_, rfl⟩
  rw [runRecord_att, runRecord_window, List.map_append, List.mem_append]
  constructor
  · rintro (hin | hin)
    · exfalso
      obtain ⟨pr, hpr, hfst⟩ := List.mem_map.mp hin
      have hk := failoverAtts_kinds cfg st d.pool now pr hpr
      rw [hk] at hfst
      exact absurd hfst (by decide)
    · exact (errAtts_mem cfg _ _ now).mp hin
  · intro hc
    exact Or.inr ((errAtts_mem cfg _ _ now).mpr hc)

/-- C4 witness: with threshold 2 % and nine error entries already in the
window, ingesting a tenth error record yields the stated window and alert
behaviour. -/
theorem error_rate_alert_witness :
    ∃ st' att, process_record cfgT stNine d500 7 = Except.ok (st', att) ∧
      st'.window = pushB cfgT.N stNine.window (entryOf d500) ∧
      ("error_rate" ∈ att.map Prod.fst ↔
        (10 ≤ st'.window.length ∧ cfgT.threshold < errorRate st'.window)) ∧
      errorRate st'.window
        = (if 0 < st'.window.length
           then (errorCount st'.window : ℚ) / (st'.window.length : ℚ) * 100
           else 0) :=
  error_rate_alert cfgT stNine d500 7 (Or.inr ⟨500, rfl⟩)

/-- C7 amended: `ingest` never raises provided the record's status field is
absent or well-formed — missing or malformed optional fields never block the
window insertion, the window stays bounded, and a fully malformed upstream
status is classified like an absent one; a malformed status value, however,
raises (see the counterexample), so the record is dropped before insertion
and the window is left intact. -/
theorem ingest_no_raise (cfg : Config) (st : WState) (d : Data) (now : ℤ)
    (h : wfStatus d) :
    ∃ st' att, process_record cfg st d now = Except.ok (st', att) ∧
      st'.window = pushB cfg.N st.window (entryOf d) ∧
      st'.window.length ≤ cfg.N ∧
      (∀ (s : ℤ) (pl : Option String) (l : List UpTok) (r : Option (List String)),
        entry_is_error ⟨s, pl, some (UpTok.bad :: l), r⟩
          = entry_is_error ⟨s, pl, none, r⟩) := by
  refine ⟨(runRecord cfg st d (statusOf d) now).1, (runRecord cfg st d (statusOf d) now).2,
    by rw [process_record_wf cfg st d now h], runRecord_window cfg st d (statusOf d) now,
    ?_, ?_⟩
  · rw [runRecord_window]
    exact pushB_length_le cfg.N st.window _
  · intro s pl l r
    unfold entry_is_error
    by_cases hs : 500 ≤ s
    · simp [hs]
    · simp [hs, usHasError]

/-- C7 witness: a record with every field absent is ingested successfully. -/
theorem ingest_no_raise_witness :
    ∃ st' att, process_record cfgT ⟨[], none, m0⟩ ⟨none, none, none, none, none⟩ 0
        = Except.ok (st', att) ∧
      st'.window = pushB cfgT.N [] (entryOf ⟨none, none, none, none, none⟩) ∧
      st'.window.length ≤ cfgT.N ∧
      (∀ (s : ℤ) (pl : Option String) (l : List UpTok) (r : Option (List String)),
        entry_is_error ⟨s, pl, some (UpTok.bad :: l), r⟩
          = entry_is_error ⟨s, pl, none, r⟩) :=
  ingest_no_raise cfgT ⟨[], none, m0⟩ ⟨none, none, none, none, none⟩ 0 (Or.inl rfl)

/-- C7 counterexample: a record whose status field is present but malformed
makes `process_record` raise (Python's `int(...)` throws before the window
is touched), contradicting the claim that ingest never raises for malformed
status values. -/
theorem ingest_no_raise_counterexample :
    process_record cfgT ⟨[], none, m0⟩ ⟨some StTok.bad, none, none, none, none⟩ 0
      = Except.error () := rfl

/-- C6: on a detected pool transition the pool state is updated to the new
pool regardless of alert admission (maintenance, cooldown and the alert map
are arbitrary), the record yields exactly one failover candidate, and any
later record carrying the same new pool yields no failover candidate at
all. -/
theorem pool_update_unconditional (cfg : Config) (st : WState) (d : Data)
    (now : ℤ) (p q : String) (hlp : st.lastPool = some q) (hdp : d.pool = some p)
    (hp : p ≠ "") (hpq : p ≠ q) (hok : wfStatus d) :
    ∃ st' att, process_record cfg st d now = Except.ok (st', att) ∧
      st'.lastPool = some p ∧
      (att.map Prod.fst).count "failover" = 1 ∧
      (∀ (st₂ : WState) (d₂ : Data) (n₂ : ℤ) (st₃ : WState)
          (att₂ : List (String × Bool)),
        st₂.lastPool = some p → d₂.pool = some p →
        process_record cfg st₂ d₂ n₂ = Except.ok (st₃, att₂) →
        (att₂.map Prod.fst).count "failover" = 0) := by
  have hobs : observePool st.lastPool d.pool = (some p, some ⟨q, p⟩) := by
    rw [hlp, hdp]
    simp [observePool, hp, hpq]
  refine ⟨(runRecord cfg st d (statusOf d) now).1, (runRecord cfg st d (statusOf d) now).2,
    by rw [process_record_wf cfg st d now hok], ?_, ?_, ?_⟩
  · rw [runRecord_lastPool, hobs]
  · rw [runRecord_att, List.map_append, List.count_append]
    have h1 : failoverAtts cfg st d.pool now
        = [("failover",
            (send_alert cfg.cooldown cfg.maintenance st.lastAlert "failover" now).1)] := by
      unfold failoverAtts
      rw [hobs]
    rw [h1, errAtts_no_failover]
    simp
  · intro st₂ d₂ n₂ st₃ att₂ hl2 hd2 hok2
    have hwf : wfStatus d₂ := by
      rcases hs : d₂.status with _ | tok
      · exact Or.inl hs
      · cases tok with
        | num n => exact Or.inr ⟨n, hs⟩
        | bad =>
            rw [show process_record cfg st₂ d₂ n₂ = Except.error () by
              simp only [process_record, getStatus, hs]; rfl] at hok2
            exact absurd hok2 (by simp)
    rw [process_record_wf cfg st₂ d₂ n₂ hwf] at hok2
    have hatt : att₂ = (runRecord cfg st₂ d₂ (statusOf d₂) n₂).2 :=
      (congrArg Prod.snd (Except.ok.inj hok2)).symm
    have hobs2 : observePool st₂.lastPool d₂.pool = (some p, none) := by
      rw [hl2, hd2]
      simp [observePool, hp]
    have h2 : failoverAtts cfg st₂ d₂.pool n₂ = [] := by
      unfold failoverAtts
      rw [hobs2]
    rw [hatt, runRecord_att, List.map_append, List.count_append, h2,
      errAtts_no_failover]
    simp

/-- C6 witness: from baseline "blue", a "green" record updates the pool state
and yields one failover candidate, and further "green" records yield none. -/
theorem pool_update_unconditional_witness :
    ∃ st' att, process_record cfgT stBlue dGreen 0 = Except.ok (st', att) ∧
      st'.lastPool = some "green" ∧
      (att.map Prod.fst).count "failover" = 1 ∧
      (∀ (st₂ : WState) (d₂ : Data) (n₂ : ℤ) (st₃ : WState)
          (att₂ : List (String × Bool)),
        st₂.lastPool = some "green" → d₂.pool = some "green" →
        process_record cfgT st₂ d₂ n₂ = Except.ok (st₃, att₂) →
        (att₂.map Prod.fst).count "failover" = 0) :=
  pool_update_unconditional cfgT stBlue dGreen 0 "green" "blue" rfl rfl
    (by decide) (by decide) (Or.inr ⟨200, rfl⟩)

/-! ### Helper lemmas about the upstream breakdown -/

theorem mem_insertD (x y : String × ℕ) (l : List (String × ℕ)) :
    y ∈ insertD x l ↔ y = x ∨ y ∈ l := by
  induction l with
  | nil => simp [insertD]
  | cons z zs ih =>
      unfold insertD
      split_ifs with h
      · simp [List.mem_cons]
      · simp [List.mem_cons, ih]
        tauto

theorem sorted_insertD (x : String × ℕ) (l : List (String × ℕ))
    (h : l.Sorted (fun a b => b.2 ≤ a.2)) :
    (insertD x l).Sorted (fun a b => b.2 ≤ a.2) := by
  induction l with
  | nil => simp [insertD]
  | cons y ys ih =>
      rw [List.sorted_cons] at h
      unfold insertD
      split_ifs with hy
      · rw [List.sorted_cons]
        refine ⟨?_, ?_⟩
        · intro b hb
          rcases List.mem_cons.mp hb with rfl | hb
          · exact hy
          · exact le_trans (h.1 b hb) hy
        · rw [List.sorted_cons]
          exact h
      · rw [List.sorted_cons]
        refine ⟨?_, ih h.2⟩
        intro b hb
        rcases (mem_insertD x b ys).mp hb with rfl | hb
        · omega
        · exact h.1 b hb

theorem sorted_sortDesc (l : List (String × ℕ)) :
    (sortDesc l).Sorted (fun a b => b.2 ≤ a.2) := by
  induction l with
  | nil => exact List.sorted_nil
  | cons x xs ih => exact sorted_insertD x _ ih

theorem mem_sortDesc (y : String × ℕ) (l : List (String × ℕ)) :
    y ∈ sortDesc l ↔ y ∈ l := by
  induction l with
  | nil => simp [sortDesc]
  | cons x xs ih => simp [sortDesc, mem_insertD, ih]

theorem mem_dedupAux (a : String) (l : List String) :
    ∀ seen : List String, a ∈ dedupAux seen l → a ∈ l := by
  induction l with
  | nil => simp [dedupAux]
  | cons x xs ih =>
      intro seen
      unfold dedupAux
      split_ifs with h
      · intro hm
        exact List.mem_cons_of_mem x (ih _ hm)
      · intro hm
        rcases List.mem_cons.mp hm with rfl | hm
        · exact List.mem_cons_self _ _
        · exact List.mem_cons_of_mem x (ih _ hm)

theorem mem_addrCounts (w : List Entry) (pr : String × ℕ)
    (h : pr ∈ addrCounts w) :
    pr.1 ∈ windowAddrToks w ∧ pr.2 = (windowAddrToks w).count pr.1 := by
  obtain ⟨a, ha, rfl⟩ := List.mem_map.mp h
  exact ⟨mem_dedupAux a _ [] ha, rfl⟩

/-- C9 amended: the breakdown attached to an `error_rate` alert is computed
over exactly the post-insert window by re-parsing each record's raw line: a
record naming `m ≥ 1` addresses increments those `m` counters, while a
record naming none (or whose raw line cannot be re-parsed) increments a
single "unknown" pseudo-address counter; the result is ranked by count,
descending, and truncated to the top 5 entries whose counts are exactly the
occurrence counts over the window's address tokens. -/
theorem upstream_breakdown (cfg : Config) (st : WState) (d : Data) (now : ℤ)
    (st' : WState) (att : List (String × Bool))
    (_hrun : process_record cfg st d now = Except.ok (st', att))
    (_her : "error_rate" ∈ att.map Prod.fst) :
    (topUpstreams st'.window).length ≤ 5 ∧
    (topUpstreams st'.window).Sorted (fun a b => b.2 ≤ a.2) ∧
    (∀ pr ∈ topUpstreams st'.window,
      pr.1 ∈ windowAddrToks st'.window ∧
      pr.2 = (windowAddrToks st'.window).count pr.1) ∧
    (∀ e ∈ st'.window, e.rawAddrToks = none → entryAddrToks e = ["unknown"]) ∧
    (∀ e ∈ st'.window, ∀ l, e.rawAddrToks = some l → entryAddrToks e = l) := by
  refine ⟨?_, ?_, ?_, ?_, ?_⟩
  · exact List.length_take_le 5 _
  · exact List.Pairwise.sublist (List.take_sublist 5 _) (sorted_sortDesc _)
  · intro pr hpr
    have h1 : pr ∈ sortDesc (addrCounts st'.window) := List.mem_of_mem_take hpr
    exact mem_addrCounts _ _ ((mem_sortDesc _ _).mp h1)
  · intro e _ hre
    unfold entryAddrToks
    rw [hre]
  · intro e _ l hre
    unfold entryAddrToks
    rw [hre]

/-- C9 witness: for the window of ten identical no-address error entries that
an `error_rate` alert is raised over, the breakdown facts hold concretely. -/
theorem upstream_breakdown_witness :
    (topUpstreams (List.replicate 10 e500)).length ≤ 5 ∧
    (topUpstreams (List.replicate 10 e500)).Sorted (fun a b => b.2 ≤ a.2) ∧
    (∀ pr ∈ topUpstreams (List.replicate 10 e500),
      pr.1 ∈ windowAddrToks (List.replicate 10 e500) ∧
      pr.2 = (windowAddrToks (List.replicate 10 e500)).count pr.1) ∧
    (∀ e ∈ List.replicate 10 e500, e.rawAddrToks = none →
      entryAddrToks e = ["unknown"]) ∧
    (∀ e ∈ List.replicate 10 e500, ∀ l, e.rawAddrToks = some l →
      entryAddrToks e = l) := by
  have hW : pushB cfgT.N stNine.window
      ⟨statusOf d500, d500.pool, d500.upstream_status, d500.rawAddrToks⟩
      = List.replicate 10 e500 := rfl
  have her : "error_rate" ∈ ((runRecord cfgT stNine d500 (statusOf d500) 7).2).map
      Prod.fst := by
    rw [runRecord_att, List.map_append, List.mem_append]
    right
    rw [hW]
    refine (errAtts_mem cfgT _ _ 7).mpr ⟨by simp, ?_⟩
    have h1 : errorCount (List.replicate 10 e500) = 10 := rfl
    have h2 : (List.replicate 10 e500).length = 10 := by simp
    unfold errorRate
    rw [h1, h2]
    norm_num [cfgT]
  have h := upstream_breakdown cfgT stNine d500 7
    (runRecord cfgT stNine d500 (statusOf d500) 7).1
    (runRecord cfgT stNine d500 (statusOf d500) 7).2
    (process_record_wf cfgT stNine d500 7 (Or.inr ⟨500, rfl⟩)) her
  exact h

/-- C9 counterexample: a window consisting of one record that names no
upstream address: the claim says such a record increments no counter (the
breakdown over named addresses is empty), but the code's breakdown counts
it under the pseudo-address "unknown". -/
theorem upstream_breakdown_counterexample :
    topUpstreams [e500] = [("unknown", 1)] ∧
    specTopUpstreams [e500] = [] ∧
    topUpstreams [e500] ≠ specTopUpstreams [e500] := by
  refine ⟨rfl, rfl, by decide⟩

/-- C2 witness: with capacity 1 and two inserted records, the window retains
exactly the last record. -/
theorem window_bound_witness :
    List.foldl (pushB 1) [] [Entry.mk 200 (some "blue") none none,
      Entry.mk 500 (some "green") none none]
      = [Entry.mk 500 (some "green") none none] ∧
    (List.foldl (pushB 1) [] [Entry.mk 200 (some "blue") none none,
      Entry.mk 500 (some "green") none none]).length = 1 := by
  have h := window_bound 1 [Entry.mk 200 (some "blue") none none,
    Entry.mk 500 (some "green") none none] (by simp)
  exact ⟨h.2.1.trans rfl, h.1⟩

end Watcher
